import Mathlib

/-!
Verification of the frame-rendering glue code in
`OTTER-master/samples/INFR-1350U/Week11-Starter/src/main.cpp`.

The file shallowly embeds the parts of `main.cpp` that carry logic:
the render comparator (lines 837-851), the sorted draw pass
(lines 853-872) together with `SetupShaderForFrame` (206-214) and
`RenderVAO` (194-204), the exit-code structure of `main` (216-225, 889),
the game-loop phase ordering (783-880), the delta-time clamp (786-790)
and the `selectedVao` wrap-around handlers (755-768).

Toolkit objects (shaders, materials, meshes, transforms) are referenced
through shared pointers in the source and are compared only by pointer
identity there; they are modelled by natural-number identities here.
GL side effects are modelled as an explicit event trace.
-/

namespace CGA1

/-- The fields of `ShaderMaterial` that `main.cpp` reads: the shader
pointer (`Material->Shader`), the render layer (`Material->RenderLayer`,
set e.g. at line 729) and the material's own pointer identity
(`l.Material < r.Material` at line 847 compares the material pointers). -/
structure ShaderMaterial where
  ptr : Nat
  Shader : Nat
  RenderLayer : Int
deriving DecidableEq

/-- The fields of `RendererComponent` that the draw pass reads:
the mesh (`renderer.Mesh`) and the material. -/
structure RendererComponent where
  Mesh : Nat
  Material : ShaderMaterial
deriving DecidableEq

/-- One element of the render group: `renderGroup.each` yields a
`RendererComponent` together with the entity's `Transform`
(main.cpp line 858).  The transform is kept as an identity; the draw
pass only forwards it into uniform uploads. -/
structure Renderable where
  renderer : RendererComponent
  transform : Nat
deriving DecidableEq

/-- The comparator passed to `renderGroup.sort` (main.cpp lines 837-851),
transcribed branch by branch: render layer first, then shader pointer,
then material pointer, else `false`. -/
def cmpLt (l r : RendererComponent) : Bool :=
  if l.Material.RenderLayer < r.Material.RenderLayer then true
  else if l.Material.RenderLayer > r.Material.RenderLayer then false
  else if l.Material.Shader < r.Material.Shader then true
  else if l.Material.Shader > r.Material.Shader then false
  else if l.Material.ptr < r.Material.ptr then true
  else if l.Material.ptr > r.Material.ptr then false
  else false

/-- `rle a b` holds when the comparator does not order `b` strictly
before `a`; a comparison sort with strict comparator `cmpLt` produces a
sequence that is sorted with respect to `rle`. -/
def rle (a b : Renderable) : Prop := cmpLt b.renderer a.renderer = false

instance : DecidableRel rle := fun a b =>
  inferInstanceAs (Decidable (cmpLt b.renderer a.renderer = false))

/-- Modelled from the spec: the render-group sort itself
(`entt::basic_group::sort`, toolkit code that is not under `src/`).
The spec states that the frame renderer "stable-sorts the set of active
renderable objects by {render layer, shader identity, material
identity}", so the sort is modelled as insertion sort (a stable sort)
with the comparator of main.cpp lines 837-851. -/
def sortRenderables (g : List Renderable) : List Renderable :=
  List.insertionSort rle g

/-- The uniform names that `main.cpp` uploads during the draw pass. -/
inductive UniformName where
  | u_View
  | u_ViewProjection
  | u_SkyboxMatrix
  | u_CamPos
  | u_ModelViewProjection
  | u_Model
  | u_NormalMatrix
deriving DecidableEq

/-- GL operations performed by the draw pass, recorded as a trace.
`frameUniform` carries uniforms derived from view/projection only;
`objectUniform` carries uniforms derived from an object's transform. -/
inductive GLEvent where
  | bindShader (shader : Nat)
  | frameUniform (shader : Nat) (name : UniformName)
  | objectUniform (shader : Nat) (name : UniformName) (transform : Nat)
  | applyMaterial (mat : Nat)
  | drawCall (mesh : Nat)
deriving DecidableEq

/-- `SetupShaderForFrame` (main.cpp lines 206-214): binds the shader and
uploads the frame-level uniforms.  Note the `Bind` here is in addition
to the `Bind` its caller already performed at line 862. -/
def SetupShaderForFrame (shader : Nat) : List GLEvent :=
  [GLEvent.bindShader shader,
   GLEvent.frameUniform shader UniformName.u_View,
   GLEvent.frameUniform shader UniformName.u_ViewProjection,
   GLEvent.frameUniform shader UniformName.u_SkyboxMatrix,
   GLEvent.frameUniform shader UniformName.u_CamPos]

/-- `RenderVAO` (main.cpp lines 194-204): uploads the three per-object
uniforms on the given shader and issues the draw call for the mesh. -/
def RenderVAO (shader mesh transform : Nat) : List GLEvent :=
  [GLEvent.objectUniform shader UniformName.u_ModelViewProjection transform,
   GLEvent.objectUniform shader UniformName.u_Model transform,
   GLEvent.objectUniform shader UniformName.u_NormalMatrix transform,
   GLEvent.drawCall mesh]

/-- The state threaded through the draw pass (main.cpp lines 853-855):
`current` is the currently bound shader, `currentMat` the currently
applied material; both start as `nullptr`, modelled as `none`. -/
structure DrawState where
  current : Option Nat
  currentMat : Option Nat
deriving DecidableEq

/-- One iteration of the `renderGroup.each` body (main.cpp lines
858-872): on a shader change, bind it and run `SetupShaderForFrame`
(which binds again); on a material change, apply the material; always
run `RenderVAO`. -/
def drawStep (st : DrawState) (rc : Renderable) : DrawState × List GLEvent :=
  let sh := rc.renderer.Material.Shader
  let mt := rc.renderer.Material.ptr
  let shaderEvs : List GLEvent :=
    if st.current ≠ some sh then GLEvent.bindShader sh :: SetupShaderForFrame sh else []
  let matEvs : List GLEvent :=
    if st.currentMat ≠ some mt then [GLEvent.applyMaterial mt] else []
  (⟨some sh, some mt⟩, shaderEvs ++ matEvs ++ RenderVAO sh rc.renderer.Mesh rc.transform)

/-- The full draw pass over a sequence of renderables, producing the
trace of GL operations. -/
def drawPass : DrawState → List Renderable → List GLEvent
  | _, [] => []
  | st, rc :: rest => (drawStep st rc).2 ++ drawPass (drawStep st rc).1 rest

/-- The draw pass split into the per-renderable chunks it emits. -/
def drawChunks : DrawState → List Renderable → List (List GLEvent)
  | _, [] => []
  | st, rc :: rest => (drawStep st rc).2 :: drawChunks (drawStep st rc).1 rest

/-- One frame's sort-then-draw pass (main.cpp lines 837-872): sort the
render group, then draw it starting from no bound shader and no applied
material. -/
def renderFrame (g : List Renderable) : List GLEvent :=
  drawPass ⟨none, none⟩ (sortRenderables g)

/-- Recognises a shader bind operation in the trace. -/
def isBind : GLEvent → Bool
  | GLEvent.bindShader _ => true
  | _ => false

/-- Recognises a material apply operation in the trace. -/
def isApply : GLEvent → Bool
  | GLEvent.applyMaterial _ => true
  | _ => false

/-- Recognises a draw call in the trace. -/
def isDrawCall : GLEvent → Bool
  | GLEvent.drawCall _ => true
  | _ => false

/-- Recognises a per-object uniform upload in the trace. -/
def isObjectUniform : GLEvent → Bool
  | GLEvent.objectUniform _ _ _ => true
  | _ => false

/-- The shader identity a renderable draws with. -/
def shaderOf (rb : Renderable) : Nat := rb.renderer.Material.Shader

/-- The material identity a renderable draws with. -/
def matOf (rb : Renderable) : Nat := rb.renderer.Material.ptr

/-- The meshes drawn by a trace, in order. -/
def drawnMeshes (evs : List GLEvent) : List Nat :=
  evs.filterMap fun e =>
    match e with
    | GLEvent.drawCall m => some m
    | _ => none

/-- Number of maximal runs of equal `f`-value in a sequence: one run for
a nonempty sequence plus one for every adjacent pair with different
`f`-values. -/
def runCount {α β : Type} [DecidableEq β] (f : α → β) : List α → Nat
  | [] => 0
  | [_] => 1
  | a :: b :: rest => (if f a = f b then 0 else 1) + runCount f (b :: rest)

/-- Number of positions whose `f`-value differs from the previous one,
where the value before the first element is `cur` (`none` standing for
"no previous value"). -/
def changesFrom {α β : Type} [DecidableEq β] (f : α → β) : Option β → List α → Nat
  | _, [] => 0
  | cur, a :: rest =>
    (if cur = some (f a) then 0 else 1) + changesFrom f (some (f a)) rest

/-- The exit-code structure of `main` (main.cpp lines 216-225 and 889):
return 1 if `InitGLFW` fails, else 1 if `InitGLAD` fails, else fall
through to the final `return 0`.  The two booleans are the outcomes of
the only two checked initialisation calls. -/
def mainExitCode (glfwOk gladOk : Bool) : Nat :=
  if !glfwOk then 1 else if !gladOk then 1 else 0

/-- The phases of one game-loop iteration, in the textual order of the
loop body (main.cpp lines 783-880). -/
inductive Phase where
  | pollEvents
  | timingUpdate
  | fpsUpdate
  | inputPoll
  | behaviourUpdate
  | clearScreen
  | transformUpdate
  | cameraRead
  | sortRenderers
  | drawRenderers
  | renderUI
  | scenePoll
  | swapBuffers
  | timestampUpdate
deriving DecidableEq

/-- The loop body of main.cpp lines 783-880 as its sequence of phases:
poll events (784), timing update (787-790), FPS buffer update
(793-796), key-watcher polling (799-806), behaviour updates (809-816),
clear (819-822), transform world-matrix updates (825-827), camera read
(830-833), render-group sort (837-851), draw pass (853-872), ImGui
(875), scene poll (877), buffer swap (878), timestamp update (879). -/
def frameBody : List Phase :=
  [Phase.pollEvents, Phase.timingUpdate, Phase.fpsUpdate, Phase.inputPoll,
   Phase.behaviourUpdate, Phase.clearScreen, Phase.transformUpdate,
   Phase.cameraRead, Phase.sortRenderers, Phase.drawRenderers,
   Phase.renderUI, Phase.scenePoll, Phase.swapBuffers, Phase.timestampUpdate]

/-- The game loop (main.cpp line 783): before each iteration the
window-close condition is polled (`glfwWindowShouldClose`); if it holds
the loop stops, otherwise the whole frame body runs and the loop
repeats.  `close n` is the polled close condition observed before
iteration `n`; `fuel` bounds the number of iterations so the model is
total.  The trace pairs each executed phase with its iteration index. -/
def gameLoop (close : Nat → Bool) : Nat → Nat → List (Nat × Phase)
  | 0, _ => []
  | fuel + 1, n =>
    if close n then []
    else (frameBody.map fun p => (n, p)) ++ gameLoop close fuel (n + 1)

/-- The timing update at the top of the loop (main.cpp lines 787-790):
`DeltaTime = CurrentFrame - LastFrame`, then
`DeltaTime = DeltaTime > 1.0f ? 1.0f : DeltaTime`.  The float
timestamps are modelled as exact rationals; the clamp compares against
the exact literal `1.0`. -/
def updateDeltaTime (currentFrame lastFrame : ℚ) : ℚ :=
  let dt := currentFrame - lastFrame
  if dt > 1 then 1 else dt

/-- The `KP_ADD` handler's update of `selectedVao` (main.cpp lines
755-761): increment, then wrap to 0 when it reaches
`controllables.size()`.  `selectedVao` is a C `int`, modelled as `Int`;
the source's signed/unsigned comparison `selectedVao >= size()` agrees
with the `Int` comparison for the nonnegative values reached here. -/
def kpAddUpdate (size : Nat) (selectedVao : Int) : Int :=
  let s := selectedVao + 1
  if s ≥ (size : Int) then 0 else s

/-- The `KP_SUBTRACT` handler's update of `selectedVao` (main.cpp lines
762-768): decrement, then wrap to `controllables.size() - 1` when it
goes below 0. -/
def kpSubUpdate (size : Nat) (selectedVao : Int) : Int :=
  let s := selectedVao - 1
  if s < 0 then (size : Int) - 1 else s

/-- A sequence of key presses applied to `selectedVao` (`true` for
`KP_ADD`, `false` for `KP_SUBTRACT`), starting from its initial value
`0` (main.cpp line 230). -/
def selAfter (size : Nat) (ops : List Bool) : Int :=
  ops.foldl (fun s op => if op then kpAddUpdate size s else kpSubUpdate size s) 0

/-- Whether a renderable carries the given material (and hence the given
render layer, shader and material identity, the full sort key). -/
def matKey (m : ShaderMaterial) (rb : Renderable) : Bool :=
  decide (rb.renderer.Material = m)

/-- A sample renderable used to evaluate the model on concrete input. -/
def rb0 : Renderable :=
  { renderer := { Mesh := 1, Material := { ptr := 10, Shader := 20, RenderLayer := 0 } },
    transform := 5 }

/-- A second sample renderable, on a higher render layer. -/
def rb1 : Renderable :=
  { renderer := { Mesh := 2, Material := { ptr := 11, Shader := 21, RenderLayer := 100 } },
    transform := 6 }

/-- A third sample renderable, sharing `rb0`'s material. -/
def rb2 : Renderable :=
  { renderer := { Mesh := 3, Material := { ptr := 10, Shader := 20, RenderLayer := 0 } },
    transform := 7 }

/-- The comparator returns `true` exactly on the strict lexicographic
order over (render layer, shader pointer, material pointer). -/
theorem cmpLt_eq_true_iff (a b : RendererComponent) :
    cmpLt a b = true ↔
      (a.Material.RenderLayer < b.Material.RenderLayer ∨
        (a.Material.RenderLayer = b.Material.RenderLayer ∧
          (a.Material.Shader < b.Material.Shader ∨
            (a.Material.Shader = b.Material.Shader ∧
              a.Material.ptr < b.Material.ptr)))) := by
  unfold cmpLt
  split_ifs <;> simp_all <;> omega

/-- `rle` is total: the strict comparator never orders both ways. -/
theorem rle_total (a b : Renderable) : rle a b ∨ rle b a := by
  unfold rle
  rw [← Bool.not_eq_true, ← Bool.not_eq_true, cmpLt_eq_true_iff, cmpLt_eq_true_iff]
  omega

/-- `rle` is transitive. -/
theorem rle_trans (a b c : Renderable) : rle a b → rle b c → rle a c := by
  unfold rle
  rw [← Bool.not_eq_true, ← Bool.not_eq_true, ← Bool.not_eq_true,
    cmpLt_eq_true_iff, cmpLt_eq_true_iff, cmpLt_eq_true_iff]
  omega

/-- The sort order never places a higher render layer first. -/
theorem rle_layer_le (a b : Renderable) (h : rle a b) :
    a.renderer.Material.RenderLayer ≤ b.renderer.Material.RenderLayer := by
  unfold rle at h
  rw [← Bool.not_eq_true, cmpLt_eq_true_iff] at h
  omega

/-- Renderables with the same material are unordered by the comparator. -/
theorem rle_of_eq_material (a b : Renderable)
    (h : a.renderer.Material = b.renderer.Material) : rle a b := by
  unfold rle
  rw [← Bool.not_eq_true, cmpLt_eq_true_iff, h]
  omega

/-- The state after one draw step is the renderable's shader and
material, whatever the previous state was. -/
theorem drawStep_fst (st : DrawState) (rc : Renderable) :
    (drawStep st rc).1 = ⟨some (shaderOf rc), some (matOf rc)⟩ := rfl

/-- The draw-pass trace on a cons. -/
theorem drawPass_cons (st : DrawState) (rc : Renderable) (rest : List Renderable) :
    drawPass st (rc :: rest) = (drawStep st rc).2 ++ drawPass (drawStep st rc).1 rest := rfl

/-- One draw step performs two shader binds on a shader change (one at
main.cpp line 862, one inside `SetupShaderForFrame` at line 207) and
none otherwise. -/
theorem countP_bind_drawStep (st : DrawState) (rc : Renderable) :
    List.countP isBind (drawStep st rc).2 =
      if st.current = some (shaderOf rc) then 0 else 2 := by
  unfold drawStep shaderOf
  dsimp only
  split_ifs <;>
    simp_all [SetupShaderForFrame, RenderVAO, isBind,
      List.countP_cons, List.countP_append, List.countP_nil]

/-- One draw step performs one material apply on a material change and
none otherwise. -/
theorem countP_apply_drawStep (st : DrawState) (rc : Renderable) :
    List.countP isApply (drawStep st rc).2 =
      if st.currentMat = some (matOf rc) then 0 else 1 := by
  unfold drawStep matOf
  dsimp only
  split_ifs <;>
    simp_all [SetupShaderForFrame, RenderVAO, isApply,
      List.countP_cons, List.countP_append, List.countP_nil]

/-- One draw step draws exactly the renderable's mesh. -/
theorem drawnMeshes_drawStep (st : DrawState) (rc : Renderable) :
    drawnMeshes (drawStep st rc).2 = [rc.renderer.Mesh] := by
  unfold drawStep
  dsimp only
  split_ifs <;>
    simp_all [SetupShaderForFrame, RenderVAO, drawnMeshes]

/-- Bind count of the draw pass: twice the number of shader changes
relative to the incoming bound shader. -/
theorem countP_bind_drawPass :
    ∀ (l : List Renderable) (st : DrawState),
      List.countP isBind (drawPass st l) = 2 * changesFrom shaderOf st.current l := by
  intro l
  induction l with
  | nil => intro st; simp [drawPass, changesFrom]
  | cons rc rest ih =>
    intro st
    rw [drawPass_cons, List.countP_append, countP_bind_drawStep, drawStep_fst, ih]
    simp only [changesFrom]
    by_cases h : st.current = some (shaderOf rc) <;> simp [h]
    omega

/-- Apply count of the draw pass: the number of material changes
relative to the incoming applied material. -/
theorem countP_apply_drawPass :
    ∀ (l : List Renderable) (st : DrawState),
      List.countP isApply (drawPass st l) = changesFrom matOf st.currentMat l := by
  intro l
  induction l with
  | nil => intro st; simp [drawPass, changesFrom]
  | cons rc rest ih =>
    intro st
    rw [drawPass_cons, List.countP_append, countP_apply_drawStep, drawStep_fst, ih]
    simp only [changesFrom]

/-- The draw pass draws each renderable's mesh once, in sequence order. -/
theorem drawnMeshes_drawPass :
    ∀ (l : List Renderable) (st : DrawState),
      drawnMeshes (drawPass st l) = l.map fun rb => rb.renderer.Mesh := by
  intro l
  induction l with
  | nil => intro st; simp [drawPass, drawnMeshes]
  | cons rc rest ih =>
    intro st
    rw [drawPass_cons]
    simp only [drawnMeshes, List.filterMap_append] at *
    rw [ih]
    have h := drawnMeshes_drawStep st rc
    unfold drawnMeshes at h
    rw [h]
    simp

/-- Run counting versus change counting, for a nonempty list. -/
theorem runCount_cons {α β : Type} [DecidableEq β] (f : α → β) :
    ∀ (l : List α) (a : α), runCount f (a :: l) = 1 + changesFrom f (some (f a)) l := by
  intro l
  induction l with
  | nil => intro a; simp [runCount, changesFrom]
  | cons b rest ih =>
    intro a
    rw [runCount, ih b]
    simp only [changesFrom, Option.some.injEq]
    by_cases h : f a = f b <;> simp [h]

/-- Change counting from no previous value equals run counting. -/
theorem changesFrom_none_eq_runCount {α β : Type} [DecidableEq β] (f : α → β) :
    ∀ l : List α, changesFrom f none l = runCount f l := by
  intro l
  cases l with
  | nil => rfl
  | cons a rest =>
    rw [runCount_cons]
    simp [changesFrom]

/-- Claim C1, amended: for every set of renderables, after the draw pass
the number of shader bind operations performed equals TWICE the number
of maximal runs of equal shader identity in the sorted sequence (not the
renderable count): on each shader change the pass binds once directly
(main.cpp line 862) and once more inside `SetupShaderForFrame`
(line 207). -/
theorem shader_bind_count_eq_twice_runs (g : List Renderable) :
    List.countP isBind (renderFrame g) =
      2 * runCount shaderOf (sortRenderables g) := by
  unfold renderFrame
  rw [countP_bind_drawPass]
  exact congrArg (2 * ·) (changesFrom_none_eq_runCount shaderOf _)

/-- Claim C1 as stated is false: a single renderable yields one maximal
run of equal shader identity but two shader bind operations. -/
theorem shader_bind_count_counterexample :
    ¬ List.countP isBind (renderFrame [rb0]) =
        runCount shaderOf (sortRenderables [rb0]) := by
  decide

/-- Claim C2: for every set of renderables, after the draw pass the
number of material apply operations equals the number of maximal runs of
equal material identity in the sorted sequence. -/
theorem material_apply_count_eq_runs (g : List Renderable) :
    List.countP isApply (renderFrame g) =
      runCount matOf (sortRenderables g) := by
  unfold renderFrame
  rw [countP_apply_drawPass]
  exact changesFrom_none_eq_runCount matOf _

/-- Claim C5: `main` exits with code 1 exactly when the GLFW or the GLAD
initialisation fails (the only two checked failures), and with code 0
otherwise; no other exit code is possible. -/
theorem exit_code_spec :
    ∀ glfwOk gladOk : Bool,
      (mainExitCode glfwOk gladOk = 1 ∨ mainExitCode glfwOk gladOk = 0) ∧
        (mainExitCode glfwOk gladOk = 1 ↔ ¬(glfwOk = true ∧ gladOk = true)) ∧
        (mainExitCode glfwOk gladOk = 0 ↔ (glfwOk = true ∧ gladOk = true)) := by
  decide

/-- Claim C9: after the timing update, `DeltaTime` is at most 1; it
equals the raw elapsed time when that is at most 1 and is clamped to 1
otherwise. -/
theorem deltaTime_clamped (currentFrame lastFrame : ℚ) :
    updateDeltaTime currentFrame lastFrame ≤ 1 ∧
      (currentFrame - lastFrame ≤ 1 →
        updateDeltaTime currentFrame lastFrame = currentFrame - lastFrame) ∧
      (1 < currentFrame - lastFrame →
        updateDeltaTime currentFrame lastFrame = 1) := by
  unfold updateDeltaTime
  dsimp only
  split_ifs with h
  · exact ⟨le_refl 1, fun hle => absurd h (not_lt.mpr hle), fun _ => rfl⟩
  · exact ⟨not_lt.mp h, fun _ => rfl, fun hlt => absurd hlt h⟩

/-- Witness for C9 at concrete inputs: an over-long frame is clamped to
1, a short frame keeps its raw elapsed time. -/
theorem deltaTime_clamped_witness :
    ((1 : ℚ) < 3 - 0 ∧ updateDeltaTime 3 0 = 1) ∧
      ((1 : ℚ) - 1 / 2 ≤ 1 ∧ updateDeltaTime 1 (1 / 2) = 1 - 1 / 2) :=
  ⟨⟨by norm_num, (deltaTime_clamped 3 0).2.2 (by norm_num)⟩,
   ⟨by norm_num, (deltaTime_clamped 1 (1 / 2)).2.1 (by norm_num)⟩⟩

/-- The `KP_ADD` update keeps `selectedVao` inside `[0, size)`. -/
theorem kpAdd_bounds (size : Nat) (sel : Int) (hpos : 0 < size)
    (h0 : 0 ≤ sel) (h1 : sel < (size : Int)) :
    0 ≤ kpAddUpdate size sel ∧ kpAddUpdate size sel < (size : Int) := by
  unfold kpAddUpdate
  dsimp only
  split_ifs with h <;> constructor <;> omega

/-- The `KP_SUBTRACT` update keeps `selectedVao` inside `[0, size)`. -/
theorem kpSub_bounds (size : Nat) (sel : Int) (hpos : 0 < size)
    (_h0 : 0 ≤ sel) (h1 : sel < (size : Int)) :
    0 ≤ kpSubUpdate size sel ∧ kpSubUpdate size sel < (size : Int) := by
  unfold kpSubUpdate
  dsimp only
  split_ifs with h <;> constructor <;> omega

/-- Any sequence of handler updates started in `[0, size)` stays there. -/
theorem selAfter_bounds_aux (size : Nat) (hpos : 0 < size) :
    ∀ (ops : List Bool) (s : Int), 0 ≤ s → s < (size : Int) →
      0 ≤ List.foldl
            (fun t op => if op then kpAddUpdate size t else kpSubUpdate size t) s ops ∧
        List.foldl
            (fun t op => if op then kpAddUpdate size t else kpSubUpdate size t) s ops <
          (size : Int) := by
  intro ops
  induction ops with
  | nil => intro s h0 h1; simpa using ⟨h0, h1⟩
  | cons op rest ih =>
    intro s h0 h1
    rw [List.foldl_cons]
    cases op
    · exact ih _ (kpSub_bounds size s hpos h0 h1).1 (kpSub_bounds size s hpos h0 h1).2
    · exact ih _ (kpAdd_bounds size s hpos h0 h1).1 (kpAdd_bounds size s hpos h0 h1).2

/-- Claim C10: the `KP_ADD` and `KP_SUBTRACT` handlers keep
`selectedVao` within `[0, controllables.size())` by wrapping at both
ends, so indexing `controllables` by any reachable `selectedVao` value
(starting from 0) is in bounds. -/
theorem selectedVao_in_bounds (size : Nat) (sel : Int) (hpos : 0 < size)
    (h0 : 0 ≤ sel) (h1 : sel < (size : Int)) :
    (0 ≤ kpAddUpdate size sel ∧ kpAddUpdate size sel < (size : Int)) ∧
      (0 ≤ kpSubUpdate size sel ∧ kpSubUpdate size sel < (size : Int)) ∧
      ∀ ops : List Bool,
        0 ≤ selAfter size ops ∧ selAfter size ops < (size : Int) := by
  refine ⟨kpAdd_bounds size sel hpos h0 h1, kpSub_bounds size sel hpos h0 h1,
    fun ops => ?_⟩
  have h := selAfter_bounds_aux size hpos ops 0 le_rfl (by exact_mod_cast hpos)
  simpa [selAfter] using h

/-- Witness for C10 at the program's configuration: two controllables
(`obj2`, `obj3`), initial selection 0, a concrete key sequence. -/
theorem selectedVao_in_bounds_witness :
    (0 < 2 ∧ (0 : Int) ≤ 0 ∧ (0 : Int) < ((2 : Nat) : Int)) ∧
      (0 ≤ kpAddUpdate 2 0 ∧ kpAddUpdate 2 0 < ((2 : Nat) : Int)) ∧
      (0 ≤ selAfter 2 [true, true, false] ∧
        selAfter 2 [true, true, false] < ((2 : Nat) : Int)) :=
  ⟨by decide,
   (selectedVao_in_bounds 2 0 (by decide) (by decide) (by decide)).1,
   (selectedVao_in_bounds 2 0 (by decide) (by decide) (by decide)).2.2
     [true, true, false]⟩

/-- Claim C3: in a frame, renderables are drawn in sorted order and a
renderable with a strictly lower render layer always comes earlier in
that order, so all of layer L1 < L2 is drawn before any of layer L2. -/
theorem lower_layers_drawn_first (g : List Renderable) :
    (∀ i j : Fin (sortRenderables g).length,
      ((sortRenderables g).get i).renderer.Material.RenderLayer <
          ((sortRenderables g).get j).renderer.Material.RenderLayer →
        i < j) ∧
      drawnMeshes (renderFrame g) =
        (sortRenderables g).map fun rb => rb.renderer.Mesh := by
  haveI : IsTotal Renderable rle := ⟨rle_total⟩
  haveI : IsTrans Renderable rle := ⟨rle_trans⟩
  constructor
  · intro i j hlt
    by_contra hij
    push_neg at hij
    have hs : List.Sorted rle (sortRenderables g) := List.sorted_insertionSort rle g
    rcases eq_or_lt_of_le hij with heq | hji
    · rw [heq] at hlt
      exact lt_irrefl _ hlt
    · have h := hs.rel_get_of_lt hji
      have h2 := rle_layer_le _ _ h
      omega
  · exact drawnMeshes_drawPass _ _

/-- Witness for C3: with layers 0 and 100, the layer-0 renderable sits
at index 0 and the layer-100 one at index 1 of the sorted sequence. -/
theorem lower_layers_drawn_first_witness :
    ((sortRenderables [rb1, rb0]).map fun rb => rb.renderer.Material.RenderLayer) =
        ([0, 100] : List Int) ∧
      (⟨0, by decide⟩ : Fin (sortRenderables [rb1, rb0]).length) < ⟨1, by decide⟩ :=
  ⟨by decide,
   (lower_layers_drawn_first [rb1, rb0]).1 ⟨0, by decide⟩ ⟨1, by decide⟩ (by decide)⟩

/-- Claim C4: sorting with the render comparator is idempotent: sorting
an already-sorted sequence yields the same sequence. -/
theorem sort_idempotent (g : List Renderable) :
    sortRenderables (sortRenderables g) = sortRenderables g := by
  haveI : IsTotal Renderable rle := ⟨rle_total⟩
  haveI : IsTrans Renderable rle := ⟨rle_trans⟩
  exact List.Sorted.insertionSort_eq (List.sorted_insertionSort rle g)

/-- Claim C6: the sort is stable: for each material key (render layer,
shader and material identity — equal material identity implies all
three), the subsequence of renderables carrying that key is unchanged by
the sort, i.e. equal-key renderables keep their relative order. -/
theorem sort_stable (g : List Renderable) (m : ShaderMaterial) :
    (sortRenderables g).filter (matKey m) = g.filter (matKey m) := by
  have hall : ∀ rb ∈ g.filter (matKey m), rb.renderer.Material = m := by
    intro rb hrb
    have h := (List.mem_filter.mp hrb).2
    simpa [matKey] using h
  have hpw : (g.filter (matKey m)).Pairwise rle := by
    apply List.pairwise_of_forall_mem_list
    intro a ha b hb
    exact rle_of_eq_material a b ((hall a ha).trans (hall b hb).symm)
  have hsub : List.Sublist (g.filter (matKey m)) (List.insertionSort rle g) :=
    List.sublist_insertionSort hpw (List.filter_sublist g)
  have hsub2 : List.Sublist (g.filter (matKey m))
      ((List.insertionSort rle g).filter (matKey m)) := by
    have h2 := hsub.filter (matKey m)
    rwa [List.filter_eq_self.mpr (fun a ha => (List.mem_filter.mp ha).2)] at h2
  have hlen : ((List.insertionSort rle g).filter (matKey m)).length =
      (g.filter (matKey m)).length :=
    ((List.perm_insertionSort rle g).filter _).length_eq
  exact (hsub2.eq_of_length hlen.symm).symm

/-- Shader-change events contain no draw call and no per-object
uniform. -/
theorem no_draw_in_shaderEvs (sh : Nat) :
    ∀ e ∈ GLEvent.bindShader sh :: SetupShaderForFrame sh,
      isDrawCall e = false ∧ isObjectUniform e = false := by
  intro e he
  fin_cases he <;> exact ⟨rfl, rfl⟩

/-- Material-change events contain no draw call and no per-object
uniform. -/
theorem no_draw_in_matEvs (mt : Nat) :
    ∀ e ∈ [GLEvent.applyMaterial mt],
      isDrawCall e = false ∧ isObjectUniform e = false := by
  intro e he
  fin_cases he
  exact ⟨rfl, rfl⟩

/-- Each draw step's trace is some state-change events (no draws, no
per-object uniforms) followed by exactly the `RenderVAO` block of the
renderable. -/
theorem drawStep_snd_shape (st : DrawState) (rc : Renderable) :
    ∃ pre, (drawStep st rc).2 =
        pre ++ RenderVAO (shaderOf rc) rc.renderer.Mesh rc.transform ∧
      ∀ e ∈ pre, isDrawCall e = false ∧ isObjectUniform e = false := by
  unfold drawStep shaderOf
  dsimp only
  split_ifs with h1 h2
  · refine ⟨_, rfl, ?_⟩
    intro e he
    rcases List.mem_append.mp he with h | h
    · exact no_draw_in_shaderEvs _ e h
    · exact no_draw_in_matEvs _ e h
  · refine ⟨_, rfl, ?_⟩
    intro e he
    rcases List.mem_append.mp he with h | h
    · exact no_draw_in_shaderEvs _ e h
    · exact absurd h (List.not_mem_nil e)
  · refine ⟨_, rfl, ?_⟩
    intro e he
    rcases List.mem_append.mp he with h | h
    · exact absurd h (List.not_mem_nil e)
    · exact no_draw_in_matEvs _ e h
  · refine ⟨_, rfl, ?_⟩
    intro e he
    rcases List.mem_append.mp he with h | h
    · exact absurd h (List.not_mem_nil e)
    · exact absurd h (List.not_mem_nil e)

/-- There is one chunk per renderable. -/
theorem drawChunks_length :
    ∀ (l : List Renderable) (st : DrawState),
      (drawChunks st l).length = l.length := by
  intro l
  induction l with
  | nil => intro st; rfl
  | cons rc rest ih => intro st; simp [drawChunks, ih]

/-- The draw pass is the concatenation of its chunks. -/
theorem drawPass_eq_join :
    ∀ (l : List Renderable) (st : DrawState),
      drawPass st l = (drawChunks st l).flatten := by
  intro l
  induction l with
  | nil => intro st; rfl
  | cons rc rest ih =>
    intro st
    rw [drawPass_cons]
    simp [drawChunks, List.flatten, ih]

/-- The `k`-th chunk belongs to the `k`-th renderable: it is
state-change events followed by that renderable's `RenderVAO` block. -/
theorem drawChunks_get? :
    ∀ (l : List Renderable) (st : DrawState) (k : Nat) (rc : Renderable),
      l.get? k = some rc →
      ∃ pre, (drawChunks st l).get? k =
          some (pre ++ RenderVAO (shaderOf rc) rc.renderer.Mesh rc.transform) ∧
        ∀ e ∈ pre, isDrawCall e = false ∧ isObjectUniform e = false := by
  intro l
  induction l with
  | nil => intro st k rc h; simp at h
  | cons a rest ih =>
    intro st k rc h
    cases k with
    | zero =>
      have ha : a = rc := by simpa using h
      subst ha
      obtain ⟨pre, hpre, hall⟩ := drawStep_snd_shape st a
      exact ⟨pre, by simp [drawChunks, hpre], hall⟩
    | succ k2 =>
      have h2 : rest.get? k2 = some rc := by simpa using h
      obtain ⟨pre, hp, ha⟩ := ih (drawStep st a).1 k2 rc h2
      exact ⟨pre, by simpa [drawChunks] using hp, ha⟩

/-- Claim C7: the frame's trace is one chunk per renderable, in sorted
order; each chunk ends with that renderable's `RenderVAO` block — the
model, model-view-projection and normal-matrix uniforms immediately
followed by its single draw call — and the rest of the chunk contains
no draw call and no per-object uniform. -/
theorem one_draw_per_renderable (g : List Renderable) :
    renderFrame g = (drawChunks ⟨none, none⟩ (sortRenderables g)).flatten ∧
      (drawChunks ⟨none, none⟩ (sortRenderables g)).length = g.length ∧
      drawnMeshes (renderFrame g) =
        (sortRenderables g).map (fun rb => rb.renderer.Mesh) ∧
      ∀ (k : Nat) (rc : Renderable), (sortRenderables g).get? k = some rc →
        ∃ pre, (drawChunks ⟨none, none⟩ (sortRenderables g)).get? k =
            some (pre ++ RenderVAO (shaderOf rc) rc.renderer.Mesh rc.transform) ∧
          ∀ e ∈ pre, isDrawCall e = false ∧ isObjectUniform e = false := by
  refine ⟨drawPass_eq_join _ _, ?_, drawnMeshes_drawPass _ _,
    fun k rc h => drawChunks_get? _ _ k rc h⟩
  rw [drawChunks_length]
  exact (List.perm_insertionSort rle g).length_eq

/-- Witness for C7 on a single renderable. -/
theorem one_draw_per_renderable_witness :
    (sortRenderables [rb0]).get? 0 = some rb0 ∧
      ∃ pre, (drawChunks ⟨none, none⟩ (sortRenderables [rb0])).get? 0 =
          some (pre ++ RenderVAO (shaderOf rb0) rb0.renderer.Mesh rb0.transform) ∧
        ∀ e ∈ pre, isDrawCall e = false ∧ isObjectUniform e = false :=
  ⟨by decide, (one_draw_per_renderable [rb0]).2.2.2 0 rb0 (by decide)⟩

/-- Claim C8: within each game-loop iteration the behaviour updates and
the transform world-matrix updates precede the sort and the draw pass of
that same frame, and no iteration runs once the polled close condition
has become true. -/
theorem frame_order_and_close :
    (List.indexOf Phase.behaviourUpdate frameBody <
        List.indexOf Phase.sortRenderers frameBody ∧
      List.indexOf Phase.transformUpdate frameBody <
        List.indexOf Phase.sortRenderers frameBody ∧
      List.indexOf Phase.sortRenderers frameBody <
        List.indexOf Phase.drawRenderers frameBody) ∧
      ∀ (close : Nat → Bool) (fuel n : Nat) (e : Nat × Phase),
        e ∈ gameLoop close fuel n → close e.1 = false := by
  constructor
  · exact ⟨by decide, by decide, by decide⟩
  · intro close fuel
    induction fuel with
    | zero => intro n e he; simp [gameLoop] at he
    | succ k ih =>
      intro n e he
      simp only [gameLoop] at he
      by_cases hc : close n = true
      · rw [if_pos hc] at he
        simp at he
      · rw [if_neg hc] at he
        rcases List.mem_append.mp he with hmem | hmem
        · obtain ⟨p, hp, rfl⟩ := List.mem_map.mp hmem
          simp only [Bool.not_eq_true] at hc
          exact hc
        · exact ih (n + 1) e hmem

/-- Witness for C8: with a close condition that first holds at iteration
2, iteration 1 executes and its polled close condition is false. -/
theorem frame_order_and_close_witness :
    ((1, Phase.pollEvents) ∈ gameLoop (fun k => decide (2 ≤ k)) 5 0) ∧
      (fun k => decide (2 ≤ k)) (1, Phase.pollEvents).1 = false :=
  ⟨by decide,
   frame_order_and_close.2 (fun k => decide (2 ≤ k)) 5 0 (1, Phase.pollEvents)
     (by decide)⟩

end CGA1
